import Mathlib

/-!
# Verification of the `filemanager` package (S3-backed file manager)

Shallow embedding of the Go package `filemanager` (`file_manager.go`,
`utils.go`, option and error files).  Machinery modelled:

* Go `error` values (`errors.New` sentinels, `awserr.Error` provider errors,
  binary `errors.Join`) together with `errors.Is` and the `errors.As`-style
  search for a provider error,
* the S3 client interface as a record of response functions (a mock client,
  exactly as the package's tests inject one),
* the operations `fileExists`, `remove`, `RemoveFilesFromDirectory`,
  `Upload`, `UploadFromURL`, `fileAbsolutePath`, `filenameFromURL`,
  `handleS3Error`, and the functional options / `NewWithOptions`.

Concurrency note: `RemoveFilesFromDirectory` launches one goroutine per
listed key through an `errgroup`; `errgroup.Wait` keeps only the first
non-nil error (in completion order).  The embedding determinises completion
order to listing order; the properties settled here (which keys the tasks
operate on, whether more than one failure survives into the result, the
nil-result cases) are insensitive to that order.  Runtime panics (nil
dereference, negative `make` length) are modelled by an explicit `crash`
outcome.
-/

/-- Go `error` values as they occur in this package: sentinel errors created
by `errors.New`, provider (`awserr.Error`) errors carrying a code, and the
binary `errors.Join` used at every call site. -/
inductive GoError where
  | sentinel (msg : String)
  | awsError (code msg : String)
  | join (a b : GoError)
deriving DecidableEq, Repr

/-- `errors.Is e t`: `e` is `t` or some error joined inside `e` is `t`
(all targets in this package are sentinels, which unwrap to nothing). -/
def GoError.isErr : GoError → GoError → Bool
  | .join a b, t => (GoError.join a b == t) || a.isErr t || b.isErr t
  | e, t => e == t

/-- The `errors.As (err, &aerr)` search for an `awserr.Error`: depth-first
through `Join` unwrapping, returning the first provider code/message. -/
def GoError.firstAws : GoError → Option (String × String)
  | .awsError c m => some (c, m)
  | .join a b => (a.firstAws).orElse (fun _ => b.firstAws)
  | .sentinel _ => none

/-- `ErrInvalidS3ClientConfig` from the package's error list. -/
def ErrInvalidS3ClientConfig : GoError := .sentinel "invalid S3 client config"

/-- `ErrFailedToUploadFile`. -/
def ErrFailedToUploadFile : GoError := .sentinel "failed to upload file"

/-- `ErrFailedToRemoveFile`. -/
def ErrFailedToRemoveFile : GoError := .sentinel "failed to remove file"

/-- `ErrFailedToCheckIfFileExists`. -/
def ErrFailedToCheckIfFileExists : GoError := .sentinel "failed to check if file exists"

/-- `ErrFailedToRemoveFiles`. -/
def ErrFailedToRemoveFiles : GoError := .sentinel "failed to remove files"

/-- `ErrMissedBucketName`. -/
def ErrMissedBucketName : GoError := .sentinel "missed bucket name"

/-- `ErrMissedS3Client`. -/
def ErrMissedS3Client : GoError := .sentinel "missed S3 client"

/-- `ErrMissedCDNURL`. -/
def ErrMissedCDNURL : GoError := .sentinel "missed CDN URL"

/-- `ErrInvalidCDNURL`. -/
def ErrInvalidCDNURL : GoError := .sentinel "invalid CDN URL"

/-- `ErrFailedToUploadFileFromURL`. -/
def ErrFailedToUploadFileFromURL : GoError := .sentinel "failed to upload file from URL"

/-- `ErrNotFound`. -/
def ErrNotFound : GoError := .sentinel "not found"

/-- `ErrUnexpected`. -/
def ErrUnexpected : GoError := .sentinel "unexpected error"

/-- `ErrMissedHTTPClient`. -/
def ErrMissedHTTPClient : GoError := .sentinel "missed HTTP client"

/-- `io.EOF`, the error a single `Read` of an exhausted body reports. -/
def ErrEOF : GoError := .sentinel "EOF"

/-- `handleS3Error` (`utils.go`): if `errors.As` finds an `awserr.Error`,
code `"NotFound"` becomes `ErrNotFound` and any other code becomes
`errors.Join(ErrUnexpected, err)`; otherwise the error passes through
unchanged (`nil` stays `nil`). -/
def handleS3Error : Option GoError → Option GoError
  | none => none
  | some e =>
    match e.firstAws with
    | some (code, _) =>
        if code = "NotFound" then some ErrNotFound
        else some (.join ErrUnexpected e)
    | none => some e

/-- Characters of `strings.Trim(s, "/")`: drop leading and trailing `'/'`. -/
def trimSlashChars (l : List Char) : List Char :=
  ((((l.dropWhile (· == '/')).reverse).dropWhile (· == '/'))).reverse

/-- `strings.Trim(s, "/")`. -/
def trimSlashes (s : String) : String :=
  String.mk (trimSlashChars s.data)

/-- `strings.HasPrefix(s, pre)`, character-wise. -/
def goHasPrefix (s pre : String) : Bool :=
  pre.data.isPrefixOf s.data

/-- `filenameFromURL` (`utils.go`): `strings.TrimPrefix(fileURL, cdnURL)` —
drop the leading `cdnURL` when present, else return `fileURL` unchanged. -/
def filenameFromURL (cdnURL fileURL : String) : String :=
  if goHasPrefix fileURL cdnURL then String.mk (fileURL.data.drop cdnURL.data.length)
  else fileURL

/-- `s3.PutObjectInput` as the package fills it in `Upload`. -/
structure PutObjectInput where
  acl : String
  contentType : String
  bucket : String
  key : String
  body : List UInt8
deriving DecidableEq, Repr

/-- The fields of `s3.ListObjectsV2Output` the package could consult:
the listed keys (each `*file.Key` of `Contents`) and the `IsTruncated`
indicator for a partial page. -/
structure S3ListResponse where
  contents : List String
  isTruncated : Bool
deriving DecidableEq, Repr

/-- The `S3Client` interface (put/list/head/delete) as a record of response
functions over a fixed bucket — a mock client, exactly how the package's
tests inject one.  `none` is a `nil` error, `some e` a failure. -/
structure S3Client where
  putObject : PutObjectInput → Option GoError
  listObjectsV2 : String → Except GoError S3ListResponse
  headObject : String → Option GoError
  deleteObject : String → Option GoError

/-- An HTTP response as `UploadFromURL` consumes it: declared
`ContentLength` (an `int64`, negative meaning unknown), the
`Content-Type` header, and the readable body bytes. -/
structure HTTPResponse where
  contentLength : Int
  contentType : String
  body : List UInt8

/-- The `httpClient` interface: `Get(url) → (resp, err)`. -/
def HTTPGetFn : Type := String → Except GoError HTTPResponse

/-- The `FileManager` struct.  The `s3` and `httpClient` fields are
`Option`s because Go interface fields may be `nil` before the options run;
construction validates them. -/
structure FileManager where
  s3 : Option S3Client
  httpClient : Option HTTPGetFn
  cdnURL : String
  bucket : String
  basePath : String
  maxFileSize : Int

/-- `DefaultMaxFileSize = 64 << 20`. -/
def DefaultMaxFileSize : Int := 64 * 1048576

/-- `DefaultACL = "public-read"`. -/
def DefaultACL : String := "public-read"

/-- Stand-in for `http.DefaultClient`, the default `httpClient`; its
behaviour is opaque to this development (no claim depends on it). -/
def defaultHTTPGet : HTTPGetFn := fun _ => .error (GoError.sentinel "default transport")

/-- A functional option `func(*FileManager) error`, modelled as a state
transformer that may fail. -/
def FMOption : Type := FileManager → Except GoError FileManager

/-- `WithS3Client`: rejects a `nil` client, else stores it. -/
def WithS3Client (client : Option S3Client) : FMOption := fun f =>
  match client with
  | none => .error ErrMissedS3Client
  | some c => .ok { f with s3 := some c }

/-- `WithCustomHTTPClient`: rejects a `nil` client, else stores it. -/
def WithCustomHTTPClient (client : Option HTTPGetFn) : FMOption := fun f =>
  match client with
  | none => .error ErrMissedHTTPClient
  | some c => .ok { f with httpClient := some c }

/-- `WithBucketName`: rejects an empty name, else stores it. -/
def WithBucketName (bucketName : String) : FMOption := fun f =>
  if bucketName = "" then .error ErrMissedBucketName
  else .ok { f with bucket := bucketName }

/-- `WithCDNURL`: trims `/`, rejects empty (`ErrMissedCDNURL`) and
non-`http(s)://`-prefixed (`ErrInvalidCDNURL`) values, stores the trimmed
URL. -/
def WithCDNURL (cdnURL : String) : FMOption := fun f =>
  let u := trimSlashes cdnURL
  if u = "" then .error ErrMissedCDNURL
  else if !(goHasPrefix u "http://") && !(goHasPrefix u "https://") then .error ErrInvalidCDNURL
  else .ok { f with cdnURL := u }

/-- `WithBasePath`: stores the slash-trimmed base path, never fails. -/
def WithBasePath (basePath : String) : FMOption := fun f =>
  .ok { f with basePath := trimSlashes basePath }

/-- `WithMaxFileSize`: non-positive values fall back to the default. -/
def WithMaxFileSize (maxFileSize : Int) : FMOption := fun f =>
  .ok { f with maxFileSize := if maxFileSize ≤ 0 then DefaultMaxFileSize else maxFileSize }

/-- The literal initial `FileManager` of `NewWithOptions`: default HTTP
client, 64MB limit, base path `"uploads"`, everything else zero-valued. -/
def initialFM : FileManager :=
  { s3 := none, httpClient := some defaultHTTPGet, cdnURL := "", bucket := ""
    basePath := "uploads", maxFileSize := DefaultMaxFileSize }

/-- The option-application loop of `NewWithOptions`: first failing option
aborts with `errors.Join(ErrInvalidS3ClientConfig, err)`. -/
def applyOptions : FileManager → List FMOption → Except GoError FileManager
  | f, [] => .ok f
  | f, o :: rest =>
    match o f with
    | .error e => .error (GoError.join ErrInvalidS3ClientConfig e)
    | .ok f2 => applyOptions f2 rest

/-- `NewWithOptions`: apply the options in order, then validate that the
bucket name, S3 client and CDN URL are present. -/
def NewWithOptions (opts : List FMOption) : Except GoError FileManager :=
  match applyOptions initialFM opts with
  | .error e => .error e
  | .ok fm =>
    if fm.bucket = "" then .error (GoError.join ErrInvalidS3ClientConfig ErrMissedBucketName)
    else if fm.s3.isNone then .error (GoError.join ErrInvalidS3ClientConfig ErrMissedS3Client)
    else if fm.cdnURL = "" then .error (GoError.join ErrInvalidS3ClientConfig ErrMissedCDNURL)
    else .ok fm

/-- `fileAbsolutePath`: `fmt.Sprintf("%s/%s/%s", cdnURL, basePath,
strings.Trim(filename, "/"))`. -/
def fileAbsolutePath (fm : FileManager) (filename : String) : String :=
  fm.cdnURL ++ ("/" ++ (fm.basePath ++ ("/" ++ trimSlashes filename)))

/-- Outcome of running an operation: normal value, returned Go error, or a
runtime panic (`crash`) such as a nil dereference or a negative-length
`make`. -/
inductive RunResult (α : Type) where
  | ok (a : α)
  | fail (e : GoError)
  | crash
deriving DecidableEq, Repr

/-- One recorded call against the S3 client, with the key (or, for `list`,
the prefix string) it was given. -/
inductive S3Call where
  | listCall (p : String)
  | headCall (key : String)
  | deleteCall (key : String)
deriving DecidableEq, Repr

/-- The key of a `headCall`, the first action of every removal task. -/
def S3Call.headKey : S3Call → Option String
  | .headCall k => some k
  | _ => none

/-- `fileExists`: one `HeadObject` round trip; translated `NotFound` is
`(false, nil)`, any other translated error is
`(false, errors.Join(ErrFailedToCheckIfFileExists, err))`, success is
`(true, nil)`.  The third component traces the client calls made. -/
def fileExists (c : S3Client) (filepath : String) : Bool × Option GoError × List S3Call :=
  match handleS3Error (c.headObject filepath) with
  | none => (true, none, [S3Call.headCall filepath])
  | some e =>
    if e.isErr ErrNotFound then (false, none, [S3Call.headCall filepath])
    else (false, some (GoError.join ErrFailedToCheckIfFileExists e), [S3Call.headCall filepath])

/-- `remove`: `exists, _ := fileExists(ctx, key)` — the check's error is
discarded; when the check does not report existence the function returns
`nil` at once, otherwise it issues the delete and wraps a delete failure
as `errors.Join(ErrFailedToRemoveFile, err)`. -/
def remove (c : S3Client) (key : String) : Option GoError × List S3Call :=
  match fileExists c key with
  | (ex, _, calls1) =>
    if !ex then (none, calls1)
    else
      match c.deleteObject key with
      | some err => (some (GoError.join ErrFailedToRemoveFile err), calls1 ++ [S3Call.deleteCall key])
      | none => (none, calls1 ++ [S3Call.deleteCall key])

/-- `RemoveFilesFromDirectory`: one `ListObjectsV2` call on the
slash-trimmed prefix; a translated `NotFound` list error is success, any
other list error is wrapped as `ErrFailedToRemoveFiles`.  One removal task
is dispatched per listed key (the Go code passes `*file.Key` by value into
each goroutine's closure); `errgroup.Wait` keeps only the first non-nil
task error, here determinised to listing order.  The second component
traces all client calls (task interleaving determinised to listing
order). -/
def removeFilesFromDirectory (c : S3Client) (dir : String) : Option GoError × List S3Call :=
  match c.listObjectsV2 (trimSlashes dir) with
  | .error e =>
    match handleS3Error (some e) with
    | none => (none, [S3Call.listCall (trimSlashes dir)])
    | some err =>
      if err.isErr ErrNotFound then (none, [S3Call.listCall (trimSlashes dir)])
      else (some (GoError.join ErrFailedToRemoveFiles err), [S3Call.listCall (trimSlashes dir)])
  | .ok resp =>
    let taskResults := resp.contents.map (fun key => remove c key)
    let calls := S3Call.listCall (trimSlashes dir) :: (taskResults.map Prod.snd).flatten
    match (taskResults.map Prod.fst).findSome? id with
    | some err => (some (GoError.join ErrFailedToRemoveFiles err), calls)
    | none => (none, calls)

/-- `Upload`: one `PutObject` with the default ACL; a failure is wrapped as
`errors.Join(ErrFailedToUploadFile, err)`, success returns
`fileAbsolutePath(filename)`.  A `nil` s3 field would be a nil
dereference, i.e. a crash. -/
def Upload (fm : FileManager) (file : List UInt8) (filename contentType : String) :
    RunResult String :=
  match fm.s3 with
  | none => .crash
  | some c =>
    match c.putObject
        { acl := DefaultACL, body := file, contentType := contentType
          bucket := fm.bucket, key := filename } with
    | some err => .fail (GoError.join ErrFailedToUploadFile err)
    | none => .ok (fileAbsolutePath fm filename)

/-- `Remove`: `remove(ctx, filenameFromURL(fm.cdnURL, fileURL))`. -/
def Remove (fm : FileManager) (c : S3Client) (fileURL : String) : Option GoError × List S3Call :=
  remove c (filenameFromURL fm.cdnURL fileURL)

/-- Go `path.Base`: empty string is `"."`, trailing slashes are removed,
the part after the last `/` is returned, and `"/"` if that is empty. -/
def pathBase (p : String) : String :=
  if p = "" then "."
  else
    let l1 := ((p.data.reverse.dropWhile (· == '/'))).reverse
    let base := ((l1.reverse.takeWhile (· != '/'))).reverse
    if base = [] then "/" else String.mk base

/-- `UploadFromURL`: fetch the URL, allocate `make([]byte,
resp.ContentLength)` — a runtime panic when `ContentLength` is negative —
then perform one `Read` into the buffer (determinised: it fills
`min(ContentLength, |body|)` bytes, leaving zero padding, and reports
`io.EOF` only when the buffer is non-empty and the body is exhausted),
and delegate to `Upload` with `path.Base(fileURL)` as the key.  Every
returned failure is wrapped as `ErrFailedToUploadFileFromURL`. -/
def UploadFromURL (fm : FileManager) (fileURL : String) : RunResult String :=
  match fm.httpClient with
  | none => .crash
  | some get =>
    match get fileURL with
    | .error e => .fail (GoError.join ErrFailedToUploadFileFromURL e)
    | .ok resp =>
      if resp.contentLength < 0 then .crash
      else
        let n := resp.contentLength.toNat
        if n > 0 && resp.body.length = 0 then
          .fail (GoError.join ErrFailedToUploadFileFromURL ErrEOF)
        else
          let buf := resp.body.take n ++ List.replicate (n - resp.body.length) 0
          match Upload fm buf (pathBase fileURL) resp.contentType with
          | .ok url => .ok url
          | .fail e => .fail (GoError.join ErrFailedToUploadFileFromURL e)
          | .crash => .crash

/-- The option list `New` passes to `NewWithOptions` (the canonical
construction path, with the client injectable as in the tests). -/
def constructorOpts (cl : Option S3Client) (b u p : String) (m : Int) : List FMOption :=
  [WithS3Client cl, WithBucketName b, WithCDNURL u, WithBasePath p, WithMaxFileSize m]

/-- Whether a character list contains two adjacent `'/'` characters. -/
def hasDS : List Char → Bool
  | a :: b :: l => (a == '/' && b == '/') || hasDS (b :: l)
  | _ => false

/-- Whether a string contains the substring `"//"`. -/
def hasDoubleSlash (s : String) : Bool := hasDS s.data

/-- Mock client whose listing has two keys and whose deletes fail with two
distinct errors (head reports both keys present). -/
def mockTwoFailures : S3Client :=
  { putObject := fun _ => none
    listObjectsV2 := fun _ => .ok { contents := ["d/k1", "d/k2"], isTruncated := false }
    headObject := fun _ => none
    deleteObject := fun k =>
      if k = "d/k1" then some (GoError.sentinel "boom1") else some (GoError.sentinel "boom2") }

/-- Mock client with a three-key listing on which every call succeeds. -/
def mock3 : S3Client :=
  { putObject := fun _ => none
    listObjectsV2 := fun _ => .ok { contents := ["dir/x", "dir/y", "dir/z"], isTruncated := false }
    headObject := fun _ => none
    deleteObject := fun _ => none }

/-- Mock client whose `HeadObject` fails with a provider error other than
`"NotFound"`. -/
def mockHeadErr : S3Client :=
  { putObject := fun _ => none
    listObjectsV2 := fun _ => .error (GoError.awsError "InternalError" "ie")
    headObject := fun _ => some (GoError.awsError "InternalError" "ie")
    deleteObject := fun _ => none }

/-- Mock client whose listing succeeds with zero objects. -/
def mockEmptyList : S3Client :=
  { putObject := fun _ => none
    listObjectsV2 := fun _ => .ok { contents := [], isTruncated := false }
    headObject := fun _ => none
    deleteObject := fun _ => none }

/-- Mock client returning a truncated page: one key listed, `IsTruncated`
set — more objects remain on the provider side. -/
def mockTrunc : S3Client :=
  { putObject := fun _ => none
    listObjectsV2 := fun _ => .ok { contents := ["dir/a"], isTruncated := true }
    headObject := fun _ => none
    deleteObject := fun _ => none }

/-- An HTTP response with the declared content length negative (the
standard encoding of an unknown length) and a non-empty body. -/
def respNegCL : HTTPResponse := { contentLength := -1, contentType := "text/plain", body := [104, 105] }

/-- A fully configured manager whose HTTP client always returns
`respNegCL`. -/
def fmNegCL : FileManager :=
  { s3 := some mock3, httpClient := some (fun _ => .ok respNegCL)
    cdnURL := "https://cdn.example.com", bucket := "test-bucket"
    basePath := "uploads", maxFileSize := DefaultMaxFileSize }

/-- The manager value produced by the canonical construction used in the
package's tests (bucket `test-bucket`, CDN `https://cdn.example.com`, base
path `uploads`). -/
def fmExample : FileManager :=
  { s3 := some mock3, httpClient := some defaultHTTPGet
    cdnURL := "https://cdn.example.com", bucket := "test-bucket"
    basePath := "uploads", maxFileSize := DefaultMaxFileSize }

/-- A non-nil error never translates to nil: `handleS3Error` either maps a
provider error to a sentinel/join or passes the error through. -/
theorem handleS3Error_some (e : GoError) : handleS3Error (some e) ≠ none := by
  unfold handleS3Error
  rcases h : e.firstAws with _ | ⟨code, msg⟩ <;> simp [h]
  split <;> simp

/-- The existence check performs exactly one `HeadObject` call on its
key, whatever the outcome. -/
theorem fileExists_trace (c : S3Client) (k : String) :
    (fileExists c k).2.2 = [S3Call.headCall k] := by
  unfold fileExists
  rcases h : handleS3Error (c.headObject k) with _ | e <;> simp [h]
  split <;> rfl

/-- C4: the error translator sends a provider error with code `"NotFound"`
to the internal `NotFound` kind, wraps a provider error with any other
code as `Unexpected` joined with the original, and passes a non-provider
error through unchanged. -/
theorem c4_error_translation (e : GoError) :
    (∀ code msg, e.firstAws = some (code, msg) → code = "NotFound" →
        handleS3Error (some e) = some ErrNotFound)
  ∧ (∀ code msg, e.firstAws = some (code, msg) → code ≠ "NotFound" →
        handleS3Error (some e) = some (GoError.join ErrUnexpected e))
  ∧ (e.firstAws = none → handleS3Error (some e) = some e) := by
  refine ⟨?_, ?_, ?_⟩
  · intro code msg h hc
    simp [handleS3Error, h, hc]
  · intro code msg h hc
    simp [handleS3Error, h, hc]
  · intro h
    simp [handleS3Error, h]

/-- Witness for C4 at three concrete errors: a `"NotFound"` provider
error, an `"AccessDenied"` provider error, and a plain transport error. -/
theorem c4_error_translation_witness :
    handleS3Error (some (GoError.awsError "NotFound" "head: no such object")) = some ErrNotFound
  ∧ handleS3Error (some (GoError.awsError "AccessDenied" "m")) =
      some (GoError.join ErrUnexpected (GoError.awsError "AccessDenied" "m"))
  ∧ handleS3Error (some (GoError.sentinel "connection reset")) =
      some (GoError.sentinel "connection reset") :=
  ⟨(c4_error_translation _).1 "NotFound" "head: no such object" rfl rfl,
   (c4_error_translation _).2.1 "AccessDenied" "m" rfl (by decide),
   (c4_error_translation _).2.2 rfl⟩

/-- C3: directory removal returns nil both when the list call fails with
an error translated to `NotFound` and when the listing is empty. -/
theorem c3_notfound_or_empty_success (c : S3Client) (dir : String)
    (h : (∃ e err, c.listObjectsV2 (trimSlashes dir) = .error e ∧
            handleS3Error (some e) = some err ∧ err.isErr ErrNotFound = true) ∨
         (∃ resp, c.listObjectsV2 (trimSlashes dir) = .ok resp ∧ resp.contents = [])) :
    (removeFilesFromDirectory c dir).1 = none := by
  rcases h with ⟨e, err, hl, hh, hnf⟩ | ⟨resp, hl, hempty⟩
  · simp [removeFilesFromDirectory, hl, hh, hnf]
  · simp [removeFilesFromDirectory, hl, hempty]

/-- Witness for C3: the client with an empty listing, and the client whose
list call fails with the provider `"NotFound"` error, both yield nil. -/
theorem c3_notfound_or_empty_success_witness :
    (removeFilesFromDirectory mockEmptyList "uploads/avatars").1 = none :=
  c3_notfound_or_empty_success mockEmptyList "uploads/avatars"
    (Or.inr ⟨{ contents := [], isTruncated := false }, rfl, rfl⟩)

/-- C10: when the HTTP response declares a negative `ContentLength`,
`UploadFromURL` crashes at `make([]byte, resp.ContentLength)` instead of
returning a `FailedToUploadFileFromURL` error. -/
theorem c10_negative_content_length_panics (fm : FileManager) (get : HTTPGetFn)
    (fileURL : String) (resp : HTTPResponse)
    (hclient : fm.httpClient = some get) (hresp : get fileURL = .ok resp)
    (hneg : resp.contentLength < 0) :
    UploadFromURL fm fileURL = .crash ∧ ∀ e, UploadFromURL fm fileURL ≠ .fail e := by
  have hc : UploadFromURL fm fileURL = .crash := by
    simp [UploadFromURL, hclient, hresp, hneg]
  exact ⟨hc, fun e => by simp [hc]⟩

/-- Witness for C10: a concretely configured manager whose HTTP client
answers with `ContentLength = -1` crashes. -/
theorem c10_negative_content_length_panics_witness :
    UploadFromURL fmNegCL "https://example.com/testfile.txt" = .crash :=
  (c10_negative_content_length_panics fmNegCL (fun _ => .ok respNegCL)
    "https://example.com/testfile.txt" respNegCL rfl rfl (by decide)).1

/-- Counterexample to C6: `filenameFromURL` strips only the CDN origin, so
applied to the URL produced for key `testfile.txt` under base path
`uploads` it yields `/uploads/testfile.txt`, not the storage key
`testfile.txt` the claim asserts. -/
theorem c6_counterexample :
    filenameFromURL "https://cdn.example.com"
      "https://cdn.example.com/uploads/testfile.txt" = "/uploads/testfile.txt"
  ∧ filenameFromURL "https://cdn.example.com"
      "https://cdn.example.com/uploads/testfile.txt" ≠ "testfile.txt" := by
  exact ⟨by decide, by decide⟩

/-- C6 (amended): with CDN URL `https://cdn.example.com`, base path
`uploads` and key `testfile.txt`, upload yields
`https://cdn.example.com/uploads/testfile.txt`, and the prefix-stripping
inverse applied to that exact URL recovers the slash-prefixed,
base-path-qualified path `/uploads/testfile.txt` — not the bare storage
key. -/
theorem c6_roundtrip_amended :
    ((NewWithOptions (constructorOpts (some mock3) "test-bucket"
        "https://cdn.example.com" "uploads" 0)).toOption.map
      (fun fm => Upload fm [116, 101] "testfile.txt" "text/plain"))
      = some (RunResult.ok "https://cdn.example.com/uploads/testfile.txt")
  ∧ filenameFromURL "https://cdn.example.com"
      "https://cdn.example.com/uploads/testfile.txt" = "/uploads/testfile.txt" := by
  exact ⟨rfl, by decide⟩

/-- C7: the failing input evaluated.  The mock client reports a truncated
page (`IsTruncated = true`) with one key; directory removal still makes a
single list call, removes only that key, never touches the remaining
objects, and returns success — the truncation is neither followed up nor
surfaced. -/
theorem c7_truncated_page_dropped :
    mockTrunc.listObjectsV2 "dir" = .ok { contents := ["dir/a"], isTruncated := true }
  ∧ removeFilesFromDirectory mockTrunc "dir"
      = (none, [S3Call.listCall "dir", S3Call.headCall "dir/a", S3Call.deleteCall "dir/a"]) := by
  exact ⟨rfl, by decide⟩

/-- C1 (amended): when at least one removal task fails, the directory
removal returns `errors.Join(ErrFailedToRemoveFiles, err)` where `err` is
the single task failure kept by `errgroup.Wait` (the first one, in the
embedding's determinisation) — the other task failures are discarded. -/
theorem c1_first_error_only (c : S3Client) (dir : String) (resp : S3ListResponse) (err : GoError)
    (hl : c.listObjectsV2 (trimSlashes dir) = .ok resp)
    (hf : (resp.contents.map (fun key => (remove c key).1)).findSome? id = some err) :
    (removeFilesFromDirectory c dir).1 = some (GoError.join ErrFailedToRemoveFiles err) := by
  simp only [removeFilesFromDirectory, hl, List.map_map]
  have hcomp : (Prod.fst ∘ fun key => remove c key) = fun key => (remove c key).1 := rfl
  rw [hcomp, hf]

/-- Witness for C1's amended statement: the two-failure client yields
exactly `Join(ErrFailedToRemoveFiles, Join(ErrFailedToRemoveFile, boom1))`. -/
theorem c1_first_error_only_witness :
    (removeFilesFromDirectory mockTwoFailures "d").1
      = some (GoError.join ErrFailedToRemoveFiles
          (GoError.join ErrFailedToRemoveFile (GoError.sentinel "boom1"))) :=
  c1_first_error_only mockTwoFailures "d" { contents := ["d/k1", "d/k2"], isTruncated := false }
    (GoError.join ErrFailedToRemoveFile (GoError.sentinel "boom1")) rfl (by decide)

/-- Counterexample to C1: both tasks of the two-key listing fail, with
distinct underlying errors `boom1` and `boom2`, yet the aggregated error
contains the first task's failure and not the second — `errgroup.Wait`
keeps a single error, so the result never aggregates K ≥ 2 failures
(whichever task happens to report first at runtime). -/
theorem c1_counterexample :
    (remove mockTwoFailures "d/k1").1
      = some (GoError.join ErrFailedToRemoveFile (GoError.sentinel "boom1"))
  ∧ (remove mockTwoFailures "d/k2").1
      = some (GoError.join ErrFailedToRemoveFile (GoError.sentinel "boom2"))
  ∧ ((removeFilesFromDirectory mockTwoFailures "d").1.map
      (fun e => (e.isErr (GoError.join ErrFailedToRemoveFile (GoError.sentinel "boom1")),
                 e.isErr (GoError.join ErrFailedToRemoveFile (GoError.sentinel "boom2")))))
      = some (true, false) :=
  ⟨by decide, by decide, by decide⟩

/-- C5 (amended): `remove` discards the existence check's error
(`exists, _ := fm.fileExists(...)`): whenever the check does not report
the file as existing — including when it failed with a non-`NotFound`
error — `remove` returns nil and issues no delete call; no
existence-check error ever propagates to the caller. -/
theorem c5_check_error_swallowed (c : S3Client) (key : String)
    (h : (fileExists c key).1 = false) :
    (remove c key).1 = none ∧ (remove c key).2 = [S3Call.headCall key] := by
  have ht := fileExists_trace c key
  rcases hfe : fileExists c key with ⟨ex, e2, calls⟩
  rw [hfe] at h ht
  simp only at h ht
  unfold remove
  rw [hfe]
  simp [h, ht]

/-- Witness for C5's amended statement at the client whose head call
fails with a provider `"InternalError"`. -/
theorem c5_check_error_swallowed_witness :
    (remove mockHeadErr "uploads/file.txt").1 = none :=
  (c5_check_error_swallowed mockHeadErr "uploads/file.txt" (by decide)).1

/-- Counterexample to C5: the existence check fails with an error that is
not `NotFound` (a wrapped provider `"InternalError"`), yet `remove`
returns nil instead of propagating it. -/
theorem c5_counterexample :
    (fileExists mockHeadErr "uploads/file.txt").2.1
      = some (GoError.join ErrFailedToCheckIfFileExists
          (GoError.join ErrUnexpected (GoError.awsError "InternalError" "ie")))
  ∧ ((fileExists mockHeadErr "uploads/file.txt").2.1.map (fun e => e.isErr ErrNotFound))
      = some false
  ∧ (remove mockHeadErr "uploads/file.txt").1 = none :=
  ⟨by decide, by decide, by decide⟩

/-- Every removal task performs exactly one `HeadObject` call, on its own
key. -/
theorem remove_trace_headKeys (c : S3Client) (k : String) :
    ((remove c k).2).filterMap S3Call.headKey = [k] := by
  have ht := fileExists_trace c k
  rcases hfe : fileExists c k with ⟨ex, e2, calls⟩
  rw [hfe] at ht
  simp only at ht
  unfold remove
  rw [hfe]
  cases ex
  · simp [ht, S3Call.headKey]
  · rcases hd : c.deleteObject k with _ | err <;>
      simp [hd, ht, S3Call.headKey, List.filterMap_append]

/-- A removal task only ever deletes its own key. -/
theorem remove_trace_deleteKey (c : S3Client) (k k2 : String)
    (h : S3Call.deleteCall k2 ∈ (remove c k).2) : k2 = k := by
  have ht := fileExists_trace c k
  rcases hfe : fileExists c k with ⟨ex, e2, calls⟩
  rw [hfe] at ht
  simp only at ht
  unfold remove at h
  rw [hfe] at h
  cases ex
  · simp [ht] at h
  · rcases hd : c.deleteObject k with _ | err <;> rw [hd] at h <;> simp [ht] at h <;> exact h

/-- The concatenated traces of the removal tasks dispatched for `keys`
contain exactly one `HeadObject` call per key, in listing order. -/
theorem tasks_headKeys (c : S3Client) (keys : List String) :
    (((keys.map (fun k => (remove c k).2)).flatten).filterMap S3Call.headKey) = keys := by
  induction keys with
  | nil => rfl
  | cons k ks ih =>
    simp only [List.map_cons, List.flatten_cons, List.filterMap_append, remove_trace_headKeys, ih]
    rfl

/-- Any key deleted by one of the dispatched tasks is one of the listed
keys. -/
theorem tasks_deleteKeys (c : S3Client) (keys : List String) (k2 : String)
    (h : S3Call.deleteCall k2 ∈ ((keys.map (fun k => (remove c k).2)).flatten)) : k2 ∈ keys := by
  induction keys with
  | nil => simp at h
  | cons k ks ih =>
    simp only [List.map_cons, List.flatten_cons, List.mem_append] at h
    rcases h with h | h
    · have hk := remove_trace_deleteKey c k k2 h
      subst hk
      exact List.mem_cons_self _ _
    · exact List.mem_cons_of_mem _ (ih h)

/-- C2: for every successful listing, directory removal dispatches exactly
one task per listed object — the head-call trace equals the listed keys —
every deleted key is a listed key, and when the listed keys are pairwise
distinct no two tasks operate on the same key. -/
theorem c2_tasks_match_listing (c : S3Client) (dir : String) (resp : S3ListResponse)
    (hl : c.listObjectsV2 (trimSlashes dir) = .ok resp) :
    ((removeFilesFromDirectory c dir).2.filterMap S3Call.headKey = resp.contents)
  ∧ (∀ k, S3Call.deleteCall k ∈ (removeFilesFromDirectory c dir).2 → k ∈ resp.contents)
  ∧ (resp.contents.Nodup → ((removeFilesFromDirectory c dir).2.filterMap S3Call.headKey).Nodup) := by
  have htrace : (removeFilesFromDirectory c dir).2
      = S3Call.listCall (trimSlashes dir)
        :: (resp.contents.map (fun k => (remove c k).2)).flatten := by
    simp only [removeFilesFromDirectory, hl]
    have hmap : ((resp.contents.map (fun k => remove c k)).map Prod.snd)
        = resp.contents.map (fun k => (remove c k).2) := by
      rw [List.map_map]; rfl
    split <;> simp [hmap]
  have h1 : (removeFilesFromDirectory c dir).2.filterMap S3Call.headKey = resp.contents := by
    rw [htrace]
    simpa [S3Call.headKey] using tasks_headKeys c resp.contents
  refine ⟨h1, ?_, fun hnd => h1 ▸ hnd⟩
  intro k hk
  rw [htrace] at hk
  rcases List.mem_cons.mp hk with h | h
  · exact absurd h (by simp)
  · exact tasks_deleteKeys c resp.contents k h

/-- Witness for C2 at a three-key listing: the dispatched tasks' head
calls are exactly the three listed keys. -/
theorem c2_tasks_match_listing_witness :
    (removeFilesFromDirectory mock3 "dir").2.filterMap S3Call.headKey
      = ["dir/x", "dir/y", "dir/z"] :=
  (c2_tasks_match_listing mock3 "dir"
    { contents := ["dir/x", "dir/y", "dir/z"], isTruncated := false } rfl).1

/-- Full evaluation of the canonical construction with a non-nil client:
the first failing validation wins, and on success the manager carries the
trimmed CDN URL and base path. -/
theorem newWithOptions_some (c : S3Client) (b u p : String) (m : Int) :
    NewWithOptions (constructorOpts (some c) b u p m)
      = if b = "" then .error (GoError.join ErrInvalidS3ClientConfig ErrMissedBucketName)
        else if trimSlashes u = "" then
          .error (GoError.join ErrInvalidS3ClientConfig ErrMissedCDNURL)
        else if !(goHasPrefix (trimSlashes u) "http://")
            && !(goHasPrefix (trimSlashes u) "https://") then
          .error (GoError.join ErrInvalidS3ClientConfig ErrInvalidCDNURL)
        else .ok { s3 := some c, httpClient := some defaultHTTPGet, cdnURL := trimSlashes u,
                   bucket := b, basePath := trimSlashes p,
                   maxFileSize := if m ≤ 0 then DefaultMaxFileSize else m } := by
  by_cases hb : b = "" <;> by_cases hu : trimSlashes u = "" <;>
    cases h1 : goHasPrefix (trimSlashes u) "http://" <;>
    cases h2 : goHasPrefix (trimSlashes u) "https://" <;>
    simp [NewWithOptions, constructorOpts, applyOptions, WithS3Client, WithBucketName,
          WithCDNURL, WithBasePath, WithMaxFileSize, initialFM, hb, hu, h1, h2]

/-- A successful canonical construction stores the trimmed CDN URL, the
trimmed base path and the bucket name. -/
theorem construction_fields (c : S3Client) (b u p : String) (m : Int) (fm : FileManager)
    (h : NewWithOptions (constructorOpts (some c) b u p m) = .ok fm) :
    fm.cdnURL = trimSlashes u ∧ fm.basePath = trimSlashes p ∧ fm.bucket = b := by
  rw [newWithOptions_some] at h
  by_cases hb : b = ""
  · rw [if_pos hb] at h
    exact absurd h (by simp)
  · rw [if_neg hb] at h
    by_cases hu : trimSlashes u = ""
    · rw [if_pos hu] at h
      exact absurd h (by simp)
    · rw [if_neg hu] at h
      split at h
      · exact absurd h (by simp)
      · injection h with h2
        subst h2
        exact ⟨rfl, rfl, rfl⟩

/-- C8: construction fails with `InvalidConfig` wrapping the specific
cause (missing client, missing bucket, missing CDN URL, invalid CDN URL),
and succeeds exactly when client, bucket and an http/https CDN URL are
all supplied. -/
theorem c8_construction_validation (cl : Option S3Client) (b u p : String) (m : Int) :
    (cl = none →
       NewWithOptions (constructorOpts cl b u p m)
         = .error (GoError.join ErrInvalidS3ClientConfig ErrMissedS3Client))
  ∧ (cl ≠ none → b = "" →
       NewWithOptions (constructorOpts cl b u p m)
         = .error (GoError.join ErrInvalidS3ClientConfig ErrMissedBucketName))
  ∧ (cl ≠ none → b ≠ "" → trimSlashes u = "" →
       NewWithOptions (constructorOpts cl b u p m)
         = .error (GoError.join ErrInvalidS3ClientConfig ErrMissedCDNURL))
  ∧ (cl ≠ none → b ≠ "" → trimSlashes u ≠ "" →
       goHasPrefix (trimSlashes u) "http://" = false →
       goHasPrefix (trimSlashes u) "https://" = false →
       NewWithOptions (constructorOpts cl b u p m)
         = .error (GoError.join ErrInvalidS3ClientConfig ErrInvalidCDNURL))
  ∧ ((NewWithOptions (constructorOpts cl b u p m)).isOk = true ↔
       (cl ≠ none ∧ b ≠ "" ∧ trimSlashes u ≠ "" ∧
        (goHasPrefix (trimSlashes u) "http://" = true ∨
         goHasPrefix (trimSlashes u) "https://" = true))) := by
  refine ⟨?_, ?_, ?_, ?_, ?_⟩
  · rintro rfl
    simp [NewWithOptions, constructorOpts, applyOptions, WithS3Client]
  · intro hcl hb
    rcases cl with _ | c
    · exact absurd rfl hcl
    · rw [newWithOptions_some, if_pos hb]
  · intro hcl hb hu
    rcases cl with _ | c
    · exact absurd rfl hcl
    · rw [newWithOptions_some, if_neg hb, if_pos hu]
  · intro hcl hb hu h1 h2
    rcases cl with _ | c
    · exact absurd rfl hcl
    · have hcond : (!(goHasPrefix (trimSlashes u) "http://")
          && !(goHasPrefix (trimSlashes u) "https://")) = true := by
        simp [h1, h2]
      rw [newWithOptions_some, if_neg hb, if_neg hu, if_pos hcond]
  · rcases cl with _ | c
    · constructor
      · intro hok
        exfalso
        revert hok
        simp [NewWithOptions, constructorOpts, applyOptions, WithS3Client, Except.isOk, Except.toBool]
      · rintro ⟨hcl, -⟩
        exact absurd rfl hcl
    · rw [newWithOptions_some]
      by_cases hb : b = "" <;> by_cases hu : trimSlashes u = "" <;>
        cases h1 : goHasPrefix (trimSlashes u) "http://" <;>
        cases h2 : goHasPrefix (trimSlashes u) "https://" <;>
        simp [hb, hu, h1, h2, Except.isOk, Except.toBool]

/-- Witness for C8: the test configuration (mock client, `test-bucket`,
`https://cdn.example.com/`) constructs successfully. -/
theorem c8_construction_validation_witness :
    (NewWithOptions (constructorOpts (some mock3) "test-bucket"
      "https://cdn.example.com/" "/uploads" 0)).isOk = true :=
  (c8_construction_validation (some mock3) "test-bucket"
      "https://cdn.example.com/" "/uploads" 0).2.2.2.2.mpr
    ⟨by simp, by decide, by decide, Or.inr (by decide)⟩

/-- Prepending a slash to a slash-free-headed, double-slash-free list
stays double-slash-free. -/
theorem hasDS_slash_cons (l : List Char) (h : hasDS l = false) (hh : l.head? ≠ some '/') :
    hasDS ('/' :: l) = false := by
  cases l with
  | nil => rfl
  | cons b t =>
    have hb : b ≠ '/' := fun e => hh (by simp [e])
    rw [show hasDS ('/' :: b :: t) = (('/' == '/') && (b == '/') || hasDS (b :: t)) from rfl]
    simp [hb, h]

/-- Concatenating two double-slash-free lists is double-slash-free when
the junction does not put two slashes together. -/
theorem hasDS_append : ∀ l1 l2 : List Char, hasDS l1 = false → hasDS l2 = false →
    (l1.getLast? ≠ some '/' ∨ l2.head? ≠ some '/') → hasDS (l1 ++ l2) = false := by
  intro l1
  induction l1 with
  | nil =>
    intro l2 _ h2 _
    simpa using h2
  | cons a t ih =>
    intro l2 h1 h2 hj
    cases t with
    | nil =>
      by_cases ha : a = '/'
      · subst ha
        have hh : l2.head? ≠ some '/' := by
          rcases hj with hj | hj
          · exact absurd (by simp : (['/'] : List Char).getLast? = some '/') hj
          · exact hj
        exact hasDS_slash_cons l2 h2 hh
      · cases l2 with
        | nil => rfl
        | cons b t2 =>
          rw [show ([a] : List Char) ++ b :: t2 = a :: b :: t2 from rfl]
          rw [show hasDS (a :: b :: t2) = ((a == '/') && (b == '/') || hasDS (b :: t2)) from rfl]
          simp [ha, h2]
    | cons b t2 =>
      have h1' := h1
      rw [show hasDS (a :: b :: t2) = ((a == '/') && (b == '/') || hasDS (b :: t2)) from rfl] at h1'
      have hab : ((a == '/') && (b == '/')) = false := (Bool.or_eq_false_iff.mp h1').1
      have hbt : hasDS (b :: t2) = false := (Bool.or_eq_false_iff.mp h1').2
      have hj2 : (b :: t2).getLast? ≠ some '/' ∨ l2.head? ≠ some '/' := by
        rcases hj with hj | hj
        · left
          rwa [List.getLast?_cons_cons] at hj
        · right
          exact hj
      have hrec := ih l2 hbt h2 hj2
      show hasDS (a :: b :: (t2 ++ l2)) = false
      rw [show hasDS (a :: b :: (t2 ++ l2))
            = ((a == '/') && (b == '/') || hasDS (b :: (t2 ++ l2))) from rfl]
      rw [hab]
      simpa using hrec

/-- Joining a nonempty, edge-slash-free, double-slash-free base segment
and an edge-slash-free, double-slash-free key segment with single slashes
yields a double-slash-free path. -/
theorem hasDS_joined (base key : List Char)
    (hbase : hasDS base = false) (hkey : hasDS key = false)
    (hb0 : base ≠ []) (hbh : base.head? ≠ some '/') (hbl : base.getLast? ≠ some '/')
    (hkh : key.head? ≠ some '/') :
    hasDS ('/' :: (base ++ '/' :: key)) = false := by
  have hmid : hasDS ('/' :: key) = false := hasDS_slash_cons key hkey hkh
  have h1 : hasDS (base ++ '/' :: key) = false :=
    hasDS_append base ('/' :: key) hbase hmid (Or.inl hbl)
  apply hasDS_slash_cons _ h1
  cases base with
  | nil => exact absurd rfl hb0
  | cons a t => simpa using hbh

/-- The head surviving `dropWhile (· == '/')` is never a slash. -/
theorem head?_dropWhileSlash (l : List Char) :
    (l.dropWhile (· == '/')).head? ≠ some '/' := by
  induction l with
  | nil => simp [List.dropWhile]
  | cons a t ih =>
    rw [List.dropWhile_cons]
    by_cases ha : a = '/'
    · simpa [ha] using ih
    · simp [ha]

/-- Slash-trimmed character lists do not end in a slash. -/
theorem getLast?_trimSlashChars (l : List Char) :
    (trimSlashChars l).getLast? ≠ some '/' := by
  unfold trimSlashChars
  rw [List.getLast?_reverse]
  exact head?_dropWhileSlash _

/-- Slash-trimmed character lists do not start with a slash. -/
theorem head?_trimSlashChars (l : List Char) :
    (trimSlashChars l).head? ≠ some '/' := by
  unfold trimSlashChars
  rw [List.head?_reverse]
  have h2 : ((l.dropWhile (· == '/')).reverse).getLast? ≠ some '/' := by
    rw [List.getLast?_reverse]
    exact head?_dropWhileSlash l
  rcases hdw : ((l.dropWhile (· == '/')).reverse).dropWhile (· == '/') with _ | ⟨a, t⟩
  · simp
  · have hsuff : ((l.dropWhile (· == '/')).reverse).dropWhile (· == '/')
        <:+ (l.dropWhile (· == '/')).reverse := List.dropWhile_suffix _
    rw [hdw] at hsuff
    rcases hsuff with ⟨pre, hpre⟩
    rw [← hpre] at h2
    rwa [List.getLast?_append_cons] at h2

/-- `trimSlashes` on strings is `trimSlashChars` on the character data. -/
theorem data_trimSlashes (s : String) : (trimSlashes s).data = trimSlashChars s.data := rfl

/-- A string with empty character data is the empty string. -/
theorem eq_empty_of_data_nil (s : String) (h : s.data = []) : s = "" := by
  cases s with
  | mk l => cases h; rfl

/-- C9 (amended): for every accepted configuration and filename, the
uploaded URL is the CDN origin, base path and trimmed key joined with a
single separator character inserted at each junction; the claimed
absence of double slashes additionally requires the base path to be
nonempty (and the segments internally double-slash-free) — with an empty
base path the join leaves two adjacent slashes. -/
theorem c9_url_join_amended (c : S3Client) (b u p : String) (m : Int) (fm : FileManager)
    (hc : NewWithOptions (constructorOpts (some c) b u p m) = .ok fm) (filename : String) :
    fileAbsolutePath fm filename
      = fm.cdnURL ++ ("/" ++ (fm.basePath ++ ("/" ++ trimSlashes filename)))
  ∧ (fm.basePath ≠ "" → hasDoubleSlash fm.basePath = false →
      hasDoubleSlash (trimSlashes filename) = false →
      hasDoubleSlash ("/" ++ (fm.basePath ++ ("/" ++ trimSlashes filename))) = false) := by
  obtain ⟨hcdn, hbase, hbucket⟩ := construction_fields c b u p m fm hc
  refine ⟨rfl, ?_⟩
  intro hb0 hbds hkds
  unfold hasDoubleSlash
  rw [show ("/" ++ (fm.basePath ++ ("/" ++ trimSlashes filename))).data
        = '/' :: (fm.basePath.data ++ '/' :: (trimSlashes filename).data) from by
      simp [String.data_append]]
  apply hasDS_joined
  · exact hbds
  · exact hkds
  · intro hnil
    exact hb0 (eq_empty_of_data_nil _ hnil)
  · rw [hbase, data_trimSlashes]
    exact head?_trimSlashChars _
  · rw [hbase, data_trimSlashes]
    exact getLast?_trimSlashChars _
  · rw [data_trimSlashes]
    exact head?_trimSlashChars _

/-- Witness for C9's amended statement: the test configuration with base
path `uploads` and key `testfile.txt` joins with single separators and
contains no double slash in the appended path. -/
theorem c9_url_join_amended_witness :
    fileAbsolutePath fmExample "testfile.txt"
      = "https://cdn.example.com" ++ ("/" ++ ("uploads" ++ ("/" ++ trimSlashes "testfile.txt")))
  ∧ hasDoubleSlash ("/" ++ ("uploads" ++ ("/" ++ trimSlashes "testfile.txt"))) = false := by
  have h := c9_url_join_amended mock3 "test-bucket" "https://cdn.example.com" "/uploads" 0
    fmExample rfl "testfile.txt"
  exact ⟨h.1, h.2 (by decide) (by decide) (by decide)⟩

/-- Counterexample to C9: construction accepts an empty base path, and
then the uploaded URL for key `testfile.txt` is
`https://cdn.example.com//testfile.txt`, which contains a double slash
after the scheme. -/
theorem c9_counterexample :
    ((NewWithOptions (constructorOpts (some mock3) "test-bucket"
        "https://cdn.example.com" "" 0)).toOption.map
      (fun fm => fileAbsolutePath fm "testfile.txt"))
      = some "https://cdn.example.com//testfile.txt"
  ∧ hasDoubleSlash (String.mk (("https://cdn.example.com//testfile.txt").data.drop 8)) = true := by
  exact ⟨rfl, by decide⟩
